import Mathlib

/-!
Verification of the scheduled-content pipeline of the ai_writer CDK repository.

The development shallowly embeds the pipeline pieces with real logic:

* the schedule time compiler `buildAtExpression` (createScheduleFunction.ts,
  identical logic in the schedulePost variant);
* the schedule registrar (`createSchedule` and `baseHandler` in
  createScheduleFunction.ts), with external calls made explicit as an
  effect list;
* the change-capture filter and the two EventBridge rules of
  `EventsConstruct` (events-construct.ts);
* the job payload serialization and its parse at the dispatch entry point.

Conventions of the embedding:

* Instants are epoch milliseconds as `Int`.  JavaScript `Date` construction
  from calendar fields follows the ECMAScript MakeDay/MakeTime arithmetic on
  the proleptic Gregorian calendar; the process-local timezone is UTC (the
  default in the deployment environment), so local fields and epoch fields
  share one basis.
* `Math.floor(a / b)` on integer millisecond counts is exact integer floor
  division; Lean `Int` division by a positive literal is floor division.
* `new Date(ms).toISOString().split(".")[0]` prints the instant in UTC and
  drops the fractional-second part, so the produced text denotes the instant
  rounded down to a whole second; a fire expression is represented by that
  denoted instant.
* A thrown exception is an `Except.error`; the error value carries the data
  interpolated into the thrown message (target instant and minute diff).
-/

namespace AiWriter

/-! ## Calendar arithmetic (ECMAScript Date model) -/

/-- Day number of a proleptic Gregorian calendar date, with day 0 at
1970-01-01.  Expects `m` between 1 and 12; `d` may be out of range and then
rolls over, exactly as ECMAScript MakeDay lets the day offset roll. -/
def daysFromCivil (y m d : Int) : Int :=
  let y2 := y - (if m ≤ 2 then 1 else 0)
  let era := y2 / 400
  let yoe := y2 - era * 400
  let doy := (153 * (m + (if m > 2 then (-3 : Int) else 9)) + 2) / 5 + d - 1
  let doe := yoe * 365 + yoe / 4 - yoe / 100 + doy
  era * 146097 + doe - 719468

/-- ECMAScript MakeDay: the month index may be any integer and is normalized
into the year (floor division and nonnegative remainder by 12). -/
def makeDay (year monthIndex day : Int) : Int :=
  let ym := year + monthIndex / 12
  let mn := monthIndex % 12
  daysFromCivil ym (mn + 1) day

/-- Epoch milliseconds of `new Date(year, monthIndex, day, hour, minute,
second)` evaluated in a UTC-local process.  Includes the legacy constructor
rule mapping years 0 to 99 to 1900 + year. -/
def mkDateMs (year monthIndex day hour minute second : Int) : Int :=
  let yr := if 0 ≤ year ∧ year ≤ 99 then 1900 + year else year
  makeDay yr monthIndex day * 86400000 +
    hour * 3600000 + minute * 60000 + second * 1000

/-! ## Data model -/

/-- The naive local wall-clock tuple carried by a scheduled content record. -/
structure Schedule where
  year : Int
  month : Int
  day : Int
  hour : Int
  minute : Int
  second : Int
deriving DecidableEq

/-- The candidate instant `targetLocal` of `buildAtExpression`:
`new Date(schedule.year, schedule.month - 1, schedule.day, schedule.hour,
schedule.minute, schedule.second)` as epoch milliseconds. -/
def targetLocalMs (s : Schedule) : Int :=
  mkDateMs s.year (s.month - 1) s.day s.hour s.minute s.second

/-- Data carried by the past-schedule exception: the thrown message
interpolates the target instant and the computed minute difference. -/
structure PastScheduleError where
  targetMs : Int
  diffMinutes : Int
deriving DecidableEq

/-- The `at(YYYY-MM-DDThh:mm:ss)` fire expression, represented by the epoch
milliseconds its text denotes.  The text is produced by
`toISOString().split(".")[0]`, which drops fractional seconds, so the denoted
instant is a whole-second multiple. -/
structure FireExpression where
  decodedMs : Int
deriving DecidableEq

/-- The `ss` (seconds) field of the `at(...)` text of a fire expression. -/
def FireExpression.secondsField (e : FireExpression) : Int :=
  (e.decodedMs / 1000) % 60

/-! ## Schedule time compiler

Embeds `buildAtExpression` of createScheduleFunction.ts.  The schedulePost
variant computes the same value: `addMinutes(now, diffMinutes)` is
`now + diffMinutes * 60000`. -/

def buildAtExpression (schedule : Schedule) (now : Int) :
    Except PastScheduleError FireExpression :=
  let targetLocal := targetLocalMs schedule
  let diffMs := targetLocal - now
  let diffMinutes := diffMs / 60000
  if diffMinutes ≤ 0 then
    Except.error ⟨targetLocal, diffMinutes⟩
  else
    Except.ok ⟨1000 * ((now + diffMinutes * 60000) / 1000)⟩

/-! ## Records and the job payload -/

/-- A scheduled content record after schema validation: the shape produced by
the `DetailSchema` zod parser of createScheduleFunction.ts. -/
structure ScheduledContentRecord where
  id : String
  userId : String
  draftId : Option String
  articleId : Option String
  entity : String
  schedule : Schedule
deriving DecidableEq

/-- A JSON value, as produced by `JSON.stringify` and consumed by the runtime
parse on the dispatch side.  Schedule fields are integral numbers. -/
inductive Json where
  | null
  | str (s : String)
  | num (n : Int)
  | obj (members : List (String × Json))

/-- First member of a JSON object list with the given key. -/
def lookupMember (key : String) : List (String × Json) → Option Json
  | [] => none
  | (k, v) :: rest => if key == k then some v else lookupMember key rest

def Json.lookup (j : Json) (key : String) : Option Json :=
  match j with
  | Json.obj members => lookupMember key members
  | _ => none

def Json.asStr : Json → Option String
  | Json.str s => some s
  | _ => none

def Json.asNum : Json → Option Int
  | Json.num n => some n
  | _ => none

def encodeSchedule (s : Schedule) : Json :=
  Json.obj [("year", Json.num s.year), ("month", Json.num s.month),
    ("day", Json.num s.day), ("hour", Json.num s.hour),
    ("minute", Json.num s.minute), ("second", Json.num s.second)]

/-- `JSON.stringify` omits properties whose value is `undefined`. -/
def encodeOptField (key : String) : Option String → List (String × Json)
  | some v => [(key, Json.str v)]
  | none => []

/-- Serialization of the parsed record, as embedded into the job payload by
`JSON.stringify` in `createSchedule`. -/
def encodeScheduledContent (r : ScheduledContentRecord) : Json :=
  Json.obj ([("id", Json.str r.id), ("userId", Json.str r.userId)] ++
    encodeOptField "draftId" r.draftId ++
    encodeOptField "articleId" r.articleId ++
    [("entity", Json.str r.entity), ("schedule", encodeSchedule r.schedule)])

/-- The job payload built by `baseHandler`:
`{ scheduledContent: post, context: "24hr" }`. -/
def dispatchPayload (post : ScheduledContentRecord) : Json :=
  Json.obj [("scheduledContent", encodeScheduledContent post),
    ("context", Json.str "24hr")]

def decodeSchedule (j : Json) : Option Schedule := do
  let year ← (← j.lookup "year").asNum
  let month ← (← j.lookup "month").asNum
  let day ← (← j.lookup "day").asNum
  let hour ← (← j.lookup "hour").asNum
  let minute ← (← j.lookup "minute").asNum
  let second ← (← j.lookup "second").asNum
  return ⟨year, month, day, hour, minute, second⟩

/-- Optional string field: absent is fine, present must be a string. -/
def decodeOptStrField (j : Json) (key : String) : Option (Option String) :=
  match j.lookup key with
  | none => some none
  | some v => v.asStr.map some

def decodeScheduledContent (j : Json) : Option ScheduledContentRecord := do
  let id ← (← j.lookup "id").asStr
  let userId ← (← j.lookup "userId").asStr
  let draftId ← decodeOptStrField j "draftId"
  let articleId ← decodeOptStrField j "articleId"
  let entity ← (← j.lookup "entity").asStr
  let schedule ← decodeSchedule (← j.lookup "schedule")
  return ⟨id, userId, draftId, articleId, entity, schedule⟩

/-- The dispatch entry point receives the stored payload, already parsed by
the runtime, as `{ scheduledContent: record, context: tag }`. -/
def parseDispatchEvent (j : Json) : Option (ScheduledContentRecord × String) := do
  let sc ← decodeScheduledContent (← j.lookup "scheduledContent")
  let ctx ← (← j.lookup "context").asStr
  return (sc, ctx)

/-! ## Schedule registrar -/

inductive ActionAfterCompletion where
  | NONE
  | DELETE
deriving DecidableEq

inductive FlexibleTimeWindowMode where
  | OFF
  | FLEXIBLE
deriving DecidableEq

/-- Retry configuration of a scheduler target; `createSchedule` never sets
one, so requests carry `none`. -/
structure RetryPolicy where
  maximumRetryAttempts : Int
  maximumEventAgeInSeconds : Int
deriving DecidableEq

/-- Deployment-injected configuration read from the environment by the
registrar function. -/
structure SchedulerConfig where
  scheduleGroupName : String
  scheduleRoleArn : String
  sendPostServiceArn : String
deriving DecidableEq

/-- The CreateScheduleCommand parameters assembled by `createSchedule`. -/
structure CreateScheduleRequest where
  name : String
  groupName : String
  targetRoleArn : String
  targetArn : String
  input : Json
  actionAfterCompletion : ActionAfterCompletion
  flexibleTimeWindowMode : FlexibleTimeWindowMode
  retryPolicy : Option RetryPolicy
  description : String
  scheduleExpression : FireExpression

/-- The request built by `createSchedule` from its arguments and the
environment configuration. -/
def mkCreateScheduleRequest (cfg : SchedulerConfig) (jobName description : String)
    (payload : Json) (scheduleExpression : FireExpression) : CreateScheduleRequest :=
  { name := jobName
    groupName := cfg.scheduleGroupName
    targetRoleArn := cfg.scheduleRoleArn
    targetArn := cfg.sendPostServiceArn
    input := payload
    actionAfterCompletion := ActionAfterCompletion.DELETE
    flexibleTimeWindowMode := FlexibleTimeWindowMode.OFF
    retryPolicy := none
    description := description
    scheduleExpression := scheduleExpression }

/-- Externally visible side effects of a handler invocation.  Log lines carry
no data the claims inspect; `persistWrite` is the (never produced) shape of a
local persistent write. -/
inductive Effect where
  | log
  | schedulerSend (req : CreateScheduleRequest)
  | persistWrite

/-- `createSchedule` performs a single `scheduler.send` of the assembled
request and nothing else. -/
def createScheduleEffects (cfg : SchedulerConfig) (jobName description : String)
    (payload : Json) (scheduleExpression : FireExpression) : List Effect :=
  [Effect.schedulerSend (mkCreateScheduleRequest cfg jobName description payload scheduleExpression)]

/-- The parsed EventBridge detail handed to `baseHandler`. -/
structure DetailEvent where
  scheduledContent : ScheduledContentRecord

/-- The value returned by `baseHandler`: `{ ok: true, id, scheduleExpression }`. -/
structure HandlerResult where
  ok : Bool
  id : String
  scheduleExpression : FireExpression

/-- Embedding of `baseHandler` of createScheduleFunction.ts.  A thrown
past-schedule error propagates as `Except.error`; on success the handler
logs, performs the one registration via `createScheduleEffects`, logs again,
and returns the result record. -/
def baseHandler (cfg : SchedulerConfig) (event : DetailEvent) (now : Int) :
    Except PastScheduleError (List Effect × HandlerResult) :=
  match buildAtExpression event.scheduledContent.schedule now with
  | Except.error err => Except.error err
  | Except.ok scheduleExpression =>
      Except.ok
        (Effect.log :: Effect.log ::
          (createScheduleEffects cfg
            (event.scheduledContent.id ++ "-scheduled-post")
            ("Post " ++ event.scheduledContent.id ++ " scheduled by " ++
              event.scheduledContent.userId)
            (dispatchPayload event.scheduledContent) scheduleExpression ++
            [Effect.log]),
         ⟨true, event.scheduledContent.id, scheduleExpression⟩)

/-- The registration requests among a list of effects. -/
def registrationRequests (effects : List Effect) : List CreateScheduleRequest :=
  effects.filterMap (fun e => match e with
    | Effect.schedulerSend req => some req
    | _ => none)

/-- Number of local persistent writes among a list of effects. -/
def persistWriteCount (effects : List Effect) : Nat :=
  (effects.filter (fun e => match e with
    | Effect.persistWrite => true
    | _ => false)).length

/-- Registration requests sent by one invocation of `baseHandler`. -/
def sentRegistrations (cfg : SchedulerConfig) (event : DetailEvent) (now : Int) :
    List CreateScheduleRequest :=
  match baseHandler cfg event now with
  | Except.ok (effects, _) => registrationRequests effects
  | Except.error _ => []

/-- Local persistent writes performed by one invocation of `baseHandler`. -/
def handlerPersistWrites (cfg : SchedulerConfig) (event : DetailEvent) (now : Int) : Nat :=
  match baseHandler cfg event now with
  | Except.ok (effects, _) => persistWriteCount effects
  | Except.error _ => 0

/-! ## Change capture filter and event router (EventsConstruct) -/

/-- A change-feed entry as seen by the pipe: the event kind tag and the new
row image (typed view; the filter reads the entity attribute of the image). -/
structure StreamEntry where
  eventName : String
  newImage : ScheduledContentRecord

/-- The normalized envelope put on the internal bus. -/
structure DomainEvent where
  source : String
  detailType : String
  scheduledContent : ScheduledContentRecord

/-- SchedulePostPipe of events-construct.ts: the filter criteria accept
entries with `eventName` INSERT whose new image has entity attribute
SCHEDULED_CONTENT; accepted entries are reshaped by the input template and
stamped with the fixed source and detail type. -/
def schedulePostPipe (entry : StreamEntry) : Option DomainEvent :=
  if entry.eventName = "INSERT" ∧ entry.newImage.entity = "SCHEDULED_CONTENT" then
    some ⟨"scheduled.content", "ScheduleContentCreated", entry.newImage⟩
  else
    none

/-- The two rule targets on the bus. -/
inductive RouterTarget where
  | scheduleCreator
  | observabilityLog
deriving DecidableEq

/-- CreateScheduledContentRule: exact-string match on source and detail
type. -/
def createScheduledContentRuleMatches (ev : DomainEvent) : Bool :=
  ev.source == "scheduled.content" && ev.detailType == "ScheduleContentCreated"

/-- CatchAllLogRule: matches any event whose source has the empty string as a
prefixing segment, that is, every event. -/
def catchAllLogRuleMatches (ev : DomainEvent) : Bool :=
  List.isPrefixOf (String.toList "") (String.toList ev.source)

/-- The targets invoked for an event: each rule fires independently. -/
def routerTargets (ev : DomainEvent) : List RouterTarget :=
  (if catchAllLogRuleMatches ev then [RouterTarget.observabilityLog] else []) ++
    (if createScheduledContentRuleMatches ev then [RouterTarget.scheduleCreator] else [])

/-! ## Helper lemmas -/

/-- The compiler rejects exactly when the floored minute difference is not
positive, carrying the target instant and the difference. -/
theorem buildAtExpression_error_of_diff_nonpos (s : Schedule) (now : Int)
    (h : (targetLocalMs s - now) / 60000 ≤ 0) :
    buildAtExpression s now =
      Except.error ⟨targetLocalMs s, (targetLocalMs s - now) / 60000⟩ := by
  simp only [buildAtExpression]
  rw [if_pos h]

/-- On a positive floored minute difference the compiler returns the
truncated fire instant. -/
theorem buildAtExpression_ok_of_diff_pos (s : Schedule) (now : Int)
    (h : 0 < (targetLocalMs s - now) / 60000) :
    buildAtExpression s now =
      Except.ok ⟨1000 * ((now + ((targetLocalMs s - now) / 60000) * 60000) / 1000)⟩ := by
  simp only [buildAtExpression]
  rw [if_neg (by omega)]

/-- Success of `baseHandler` forces success of the compiler, and then the
whole effect list is determined. -/
theorem baseHandler_ok_shape (cfg : SchedulerConfig) (event : DetailEvent) (now : Int)
    (h : ∃ out, baseHandler cfg event now = Except.ok out) :
    ∃ e, buildAtExpression event.scheduledContent.schedule now = Except.ok e ∧
      baseHandler cfg event now =
        Except.ok
          (Effect.log :: Effect.log ::
            (createScheduleEffects cfg
              (event.scheduledContent.id ++ "-scheduled-post")
              ("Post " ++ event.scheduledContent.id ++ " scheduled by " ++
                event.scheduledContent.userId)
              (dispatchPayload event.scheduledContent) e ++
              [Effect.log]),
           ⟨true, event.scheduledContent.id, e⟩) := by
  obtain ⟨out, hout⟩ := h
  unfold baseHandler at hout
  cases hb : buildAtExpression event.scheduledContent.schedule now with
  | error err =>
    rw [hb] at hout
    exact Except.noConfusion hout
  | ok e =>
    exact ⟨e, rfl, by unfold baseHandler; rw [hb]⟩

/-- The names of the registrations sent by a successful invocation. -/
theorem sentRegistrations_names (cfg : SchedulerConfig) (event : DetailEvent) (now : Int)
    (h : ∃ out, baseHandler cfg event now = Except.ok out) :
    (sentRegistrations cfg event now).map CreateScheduleRequest.name =
      [event.scheduledContent.id ++ "-scheduled-post"] := by
  obtain ⟨e, _, hshape⟩ := baseHandler_ok_shape cfg event now h
  unfold sentRegistrations
  rw [hshape]
  rfl

/-! ## Claims -/

/-- A concrete schedule: 1970-01-01T00:10:00, candidate instant 600000 ms. -/
def tenPastMidnight : Schedule := ⟨1970, 1, 1, 0, 10, 0⟩

/-- A concrete schedule: 1970-01-01T00:00:30, candidate instant 30000 ms. -/
def halfPastMidnightSecond : Schedule := ⟨1970, 1, 1, 0, 0, 30⟩

/-- Claim C1 counterexample: with `now` 30000 ms (1970-01-01T00:00:30) and a
candidate of 600000 ms (00:10:00), strictly more than one minute ahead, the
compiler succeeds with decoded instant 570000 ms (00:09:30), whose seconds
field is 30, not zero. -/
theorem compile_seconds_field_counterexample :
    targetLocalMs tenPastMidnight - 30000 > 60000 ∧
    buildAtExpression tenPastMidnight 30000 = Except.ok ⟨570000⟩ ∧
    FireExpression.secondsField ⟨570000⟩ = 30 :=
  ⟨by decide, rfl, by decide⟩

/-- Claim C1 (amended): for every schedule whose candidate instant is
strictly more than one minute after now, the compiler succeeds; the decoded
instant of the expression is `now + floor((candidate - now)/60s)` minutes
rounded down to a whole second, and the seconds field of the expression
equals the seconds-within-minute of now (zero only when now itself lies on a
whole minute). -/
theorem compile_decoded_instant_and_seconds (s : Schedule) (now : Int)
    (h : targetLocalMs s - now > 60000) :
    ∃ e, buildAtExpression s now = Except.ok e ∧
      e.decodedMs = 1000 * ((now + ((targetLocalMs s - now) / 60000) * 60000) / 1000) ∧
      e.secondsField = (now / 1000) % 60 := by
  refine ⟨_, buildAtExpression_ok_of_diff_pos s now (by omega), rfl, ?_⟩
  show (1000 * ((now + ((targetLocalMs s - now) / 60000) * 60000) / 1000) / 1000) % 60
      = (now / 1000) % 60
  omega

theorem compile_decoded_instant_and_seconds_witness :
    targetLocalMs tenPastMidnight - 30000 > 60000 ∧
    (∃ e, buildAtExpression tenPastMidnight 30000 = Except.ok e ∧
      e.decodedMs =
        1000 * ((30000 + ((targetLocalMs tenPastMidnight - 30000) / 60000) * 60000) / 1000) ∧
      e.secondsField = ((30000 : Int) / 1000) % 60) :=
  ⟨by decide, compile_decoded_instant_and_seconds tenPastMidnight 30000 (by decide)⟩

/-- Claim C2: whenever the floored minute difference between the candidate
and now is at most zero, the compiler fails with the past-schedule error
carrying the candidate and that difference; in particular a candidate equal
to now (difference zero) is rejected, so the future boundary is exclusive. -/
theorem compile_rejects_past (s : Schedule) (now : Int)
    (h : (targetLocalMs s - now) / 60000 ≤ 0) :
    buildAtExpression s now =
      Except.error ⟨targetLocalMs s, (targetLocalMs s - now) / 60000⟩ :=
  buildAtExpression_error_of_diff_nonpos s now h

theorem compile_rejects_past_witness :
    (targetLocalMs tenPastMidnight - 600000) / 60000 ≤ 0 ∧
    buildAtExpression tenPastMidnight 600000 = Except.error ⟨600000, 0⟩ :=
  ⟨by decide, compile_rejects_past tenPastMidnight 600000 (by decide)⟩

/-- Claim C9: a candidate strictly after now but less than sixty seconds
after it has floored minute difference zero, so the compiler fails with the
past-schedule error even though the candidate is strictly in the future. -/
theorem compile_rejects_subminute_future (s : Schedule) (now : Int)
    (h1 : now < targetLocalMs s) (h2 : targetLocalMs s < now + 60000) :
    buildAtExpression s now = Except.error ⟨targetLocalMs s, 0⟩ := by
  have hz : (targetLocalMs s - now) / 60000 = 0 := by omega
  have := buildAtExpression_error_of_diff_nonpos s now (by omega)
  rw [hz] at this
  exact this

theorem compile_rejects_subminute_future_witness :
    (0 : Int) < targetLocalMs halfPastMidnightSecond ∧
    targetLocalMs halfPastMidnightSecond < 0 + 60000 ∧
    buildAtExpression halfPastMidnightSecond 0 = Except.error ⟨30000, 0⟩ :=
  ⟨by decide, by decide,
    compile_rejects_subminute_future halfPastMidnightSecond 0 (by decide) (by decide)⟩

/-- Claim C10: whenever the compiler succeeds, the effective fire instant
`now + floor((candidate - now)/60s)` minutes is strictly after now, at most
the candidate instant, and strictly after the candidate minus sixty
seconds. -/
theorem compile_fire_instant_bounds (s : Schedule) (now : Int) (e : FireExpression)
    (h : buildAtExpression s now = Except.ok e) :
    now < now + ((targetLocalMs s - now) / 60000) * 60000 ∧
    now + ((targetLocalMs s - now) / 60000) * 60000 ≤ targetLocalMs s ∧
    targetLocalMs s - 60000 < now + ((targetLocalMs s - now) / 60000) * 60000 := by
  have hpos : 0 < (targetLocalMs s - now) / 60000 := by
    by_contra hle
    rw [buildAtExpression_error_of_diff_nonpos s now (by omega)] at h
    exact Except.noConfusion h
  omega

theorem compile_fire_instant_bounds_witness :
    buildAtExpression tenPastMidnight 0 = Except.ok ⟨600000⟩ ∧
    ((0 : Int) < 0 + ((targetLocalMs tenPastMidnight - 0) / 60000) * 60000 ∧
      0 + ((targetLocalMs tenPastMidnight - 0) / 60000) * 60000 ≤ targetLocalMs tenPastMidnight ∧
      targetLocalMs tenPastMidnight - 60000 <
        0 + ((targetLocalMs tenPastMidnight - 0) / 60000) * 60000) :=
  ⟨rfl, compile_fire_instant_bounds tenPastMidnight 0 ⟨600000⟩ rfl⟩

/-- Claim C3: every registration sent by a successful handler invocation is
named by appending the fixed suffix to the record id, and two successful
invocations for records with the same id register the same job name. -/
theorem registrar_job_name (cfg : SchedulerConfig) (event : DetailEvent) (now : Int)
    (h : ∃ out, baseHandler cfg event now = Except.ok out) :
    (sentRegistrations cfg event now).map CreateScheduleRequest.name =
      [event.scheduledContent.id ++ "-scheduled-post"] ∧
    ∀ cfg2 event2 now2, (∃ out, baseHandler cfg2 event2 now2 = Except.ok out) →
      event2.scheduledContent.id = event.scheduledContent.id →
      (sentRegistrations cfg2 event2 now2).map CreateScheduleRequest.name =
        (sentRegistrations cfg event now).map CreateScheduleRequest.name := by
  refine ⟨sentRegistrations_names cfg event now h, ?_⟩
  intro cfg2 event2 now2 h2 hid
  rw [sentRegistrations_names cfg2 event2 now2 h2,
    sentRegistrations_names cfg event now h, hid]

/-- A concrete configuration for the witnesses. -/
def witnessConfig : SchedulerConfig := ⟨"default", "role-arn", "target-arn"⟩

/-- A concrete record for the witnesses, scheduled at 1970-01-01T00:10:00. -/
def witnessRecord : ScheduledContentRecord :=
  ⟨"abc123", "u1", none, none, "SCHEDULED_CONTENT", tenPastMidnight⟩

/-- The witness handler input. -/
def witnessDetail : DetailEvent := ⟨witnessRecord⟩

theorem registrar_job_name_witness :
    (∃ out, baseHandler witnessConfig witnessDetail 0 = Except.ok out) ∧
    (sentRegistrations witnessConfig witnessDetail 0).map CreateScheduleRequest.name =
      ["abc123-scheduled-post"] :=
  ⟨⟨_, rfl⟩,
    ((registrar_job_name witnessConfig witnessDetail 0 ⟨_, rfl⟩).1).trans (by decide)⟩

/-- Claim C6: a successful invocation of the registrar handler sends exactly
one registration request to the scheduling service and performs no local
persistent write. -/
theorem registrar_single_call_no_persistence (cfg : SchedulerConfig)
    (event : DetailEvent) (now : Int)
    (h : ∃ out, baseHandler cfg event now = Except.ok out) :
    (sentRegistrations cfg event now).length = 1 ∧
    handlerPersistWrites cfg event now = 0 := by
  obtain ⟨e, _, hshape⟩ := baseHandler_ok_shape cfg event now h
  unfold sentRegistrations handlerPersistWrites
  rw [hshape]
  exact ⟨rfl, rfl⟩

theorem registrar_single_call_no_persistence_witness :
    (∃ out, baseHandler witnessConfig witnessDetail 0 = Except.ok out) ∧
    ((sentRegistrations witnessConfig witnessDetail 0).length = 1 ∧
      handlerPersistWrites witnessConfig witnessDetail 0 = 0) :=
  ⟨⟨_, rfl⟩, registrar_single_call_no_persistence witnessConfig witnessDetail 0 ⟨_, rfl⟩⟩

/-- Claim C7: every request assembled by the registrar carries the
delete-after-completion disposal policy, the flexible time window switched
off, and no retry policy. -/
theorem schedule_job_disposal_policy (cfg : SchedulerConfig)
    (jobName description : String) (payload : Json) (expr : FireExpression) :
    (mkCreateScheduleRequest cfg jobName description payload expr).actionAfterCompletion =
      ActionAfterCompletion.DELETE ∧
    (mkCreateScheduleRequest cfg jobName description payload expr).flexibleTimeWindowMode =
      FlexibleTimeWindowMode.OFF ∧
    (mkCreateScheduleRequest cfg jobName description payload expr).retryPolicy = none :=
  ⟨rfl, rfl, rfl⟩

/-- Claim C4: a change-feed entry passes the SchedulePostPipe filter into a
domain event exactly when its event kind is INSERT and the entity attribute
of its new image is SCHEDULED_CONTENT; any entry violating either condition
produces no event. -/
theorem change_capture_filter_correct (entry : StreamEntry) :
    schedulePostPipe entry ≠ none ↔
      entry.eventName = "INSERT" ∧ entry.newImage.entity = "SCHEDULED_CONTENT" := by
  by_cases hc : entry.eventName = "INSERT" ∧ entry.newImage.entity = "SCHEDULED_CONTENT" <;>
    simp [schedulePostPipe, hc]

/-- Claim C5: the router invokes the schedule creator exactly when the source
is scheduled.content and the detail type is ScheduleContentCreated, and every
event, matching or not, is also delivered to the observability log target. -/
theorem event_router_dispatch (ev : DomainEvent) :
    (RouterTarget.scheduleCreator ∈ routerTargets ev ↔
      ev.source = "scheduled.content" ∧ ev.detailType = "ScheduleContentCreated") ∧
    RouterTarget.observabilityLog ∈ routerTargets ev := by
  have hcatch : catchAllLogRuleMatches ev = true := by
    unfold catchAllLogRuleMatches
    cases String.toList ev.source <;> rfl
  by_cases h1 : ev.source = "scheduled.content" <;>
    by_cases h2 : ev.detailType = "ScheduleContentCreated" <;>
      simp [routerTargets, createScheduledContentRuleMatches, hcatch, h1, h2]

/-- Claim C8: serializing a record into the job payload and parsing that
payload at the dispatch entry point returns the structurally identical record
together with the added context tag. -/
theorem payload_round_trip (r : ScheduledContentRecord) :
    parseDispatchEvent (dispatchPayload r) = some (r, "24hr") := by
  cases r with
  | mk rid userId draftId articleId entity schedule =>
    cases draftId <;> cases articleId <;> rfl

end AiWriter
